import Mathlib

/-!
Verification development for the qr-code-extractor repository.

The definitions below are shallow embeddings of the Python sources:
  * src/analyze_qr_codes.py     (QRCodeAnalyzer)
  * src/utils/image_downloader.py
  * src/utils/qr_detector.py
  * src/qr_processor.py
  * src/process_qr_codes.py     (QRCodeProcessor)
Pure helpers become Lean functions; the network and the barcode
libraries become explicit oracles (functions or `Except` values);
Python exceptions become `Except.error` / `Option.none`.
-/

/-! ## Python string primitives

Models of the Python `str` operations used by the scripts: `strip()`,
`startswith`, `upper()`, slicing, and substring membership.  Python
strings are modelled as Lean `String` (sequences of code points). -/

/-- Characters removed by Python's `str.strip()` (ASCII whitespace). -/
def isPySpace (c : Char) : Bool :=
  c = ' ' || c = '\t' || c = '\n' || c = '\r' || c = '\x0b' || c = '\x0c'

/-- Remove leading and trailing whitespace from a character list, as
Python `str.strip()` does. -/
def stripList (l : List Char) : List Char :=
  ((l.dropWhile isPySpace).reverse.dropWhile isPySpace).reverse

/-- Model of Python `str.strip()`. -/
def pyStrip (s : String) : String := String.mk (stripList s.toList)

/-- Model of Python `str.startswith(p)`. -/
def pyStartsWith (s p : String) : Bool := p.toList.isPrefixOf s.toList

/-- Model of Python `str.upper()` (ASCII case mapping). -/
def pyUpper (s : String) : String := String.mk (s.toList.map Char.toUpper)

/-- Scan for `needle` as a contiguous block of `hay`. -/
def listContainsBlock (hay needle : List Char) : Bool :=
  needle.isPrefixOf hay ||
    match hay with
    | [] => false
    | _ :: t => listContainsBlock t needle

/-- Model of Python's `needle in hay` substring test. -/
def strContains (needle hay : String) : Bool := listContainsBlock hay.toList needle.toList

theorem dropWhile_head_false {p : Char → Bool} {l : List Char} {c : Char}
    (h : (l.dropWhile p).head? = some c) : p c = false := by
  induction l with
  | nil => simp [List.dropWhile] at h
  | cons a t ih =>
    by_cases hp : p a = true
    · rw [List.dropWhile_cons_of_pos hp] at h
      exact ih h
    · rw [List.dropWhile_cons_of_neg hp] at h
      simp at h
      subst h
      simpa using hp

theorem dropWhile_of_head_false {p : Char → Bool} {l : List Char}
    (h : ∀ c, l.head? = some c → p c = false) : l.dropWhile p = l := by
  cases l with
  | nil => rfl
  | cons a t =>
    have ha : p a = false := h a rfl
    rw [List.dropWhile_cons_of_neg (by simp [ha])]

theorem dropWhile_idem (p : Char → Bool) (l : List Char) :
    (l.dropWhile p).dropWhile p = l.dropWhile p := by
  apply dropWhile_of_head_false
  intro c hc
  exact dropWhile_head_false hc

theorem dropWhile_is_suffix (p : Char → Bool) (l : List Char) :
    ∃ u, u ++ l.dropWhile p = l := by
  induction l with
  | nil => exact ⟨[], rfl⟩
  | cons a t ih =>
    by_cases hp : p a = true
    · obtain ⟨u, hu⟩ := ih
      exact ⟨a :: u, by simp [List.dropWhile_cons_of_pos hp, hu]⟩
    · exact ⟨[], by simp [List.dropWhile_cons_of_neg hp]⟩

theorem stripList_head_false {l : List Char} {c : Char}
    (h : (stripList l).head? = some c) : isPySpace c = false := by
  unfold stripList at h
  set B := (l.dropWhile isPySpace).reverse.dropWhile isPySpace with hB
  obtain ⟨u, hu⟩ := dropWhile_is_suffix isPySpace (l.dropWhile isPySpace).reverse
  rw [← hB] at hu
  have hA : B.reverse ++ u.reverse = l.dropWhile isPySpace := by
    have := congrArg List.reverse hu
    simpa [List.reverse_append] using this
  cases hrev : B.reverse with
  | nil => rw [hrev] at h; simp at h
  | cons d t =>
    rw [hrev] at h
    simp at h
    subst h
    have hd : (l.dropWhile isPySpace).head? = some d := by
      rw [← hA, hrev]; rfl
    exact dropWhile_head_false hd

theorem stripList_idem (l : List Char) : stripList (stripList l) = stripList l := by
  have h1 : (stripList l).dropWhile isPySpace = stripList l :=
    dropWhile_of_head_false fun c hc => by simp [stripList_head_false hc]
  unfold stripList
  rw [show stripList l = ((l.dropWhile isPySpace).reverse.dropWhile isPySpace).reverse from rfl] at h1
  rw [h1]
  rw [List.reverse_reverse, dropWhile_idem]

theorem pyStrip_idem (s : String) : pyStrip (pyStrip s) = pyStrip s := by
  unfold pyStrip
  show String.mk (stripList (stripList s.toList)) = String.mk (stripList s.toList)
  rw [stripList_idem]

/-! ## Result formatting — `QRCodeAnalyzer.format_qr_result`
(src/analyze_qr_codes.py lines 201-208). -/

/-- Model of `QRCodeAnalyzer.format_qr_result`: empty list maps to
`"NOT_FOUND"`, a singleton to its element, a longer list to
`"<n> QR codes found"`. -/
def format_qr_result : List String → String
  | [] => "NOT_FOUND"
  | [d] => d
  | l => toString l.length ++ " QR codes found"

/-! ## Deduplication — `QRCodeAnalyzer.analyze_image`
(src/analyze_qr_codes.py lines 191-197): iterate over the collected
payloads, keeping each string the first time it is seen. -/

/-- Auxiliary loop of the dedup block: `seen` is the set of already
emitted payloads (modelled as a list, membership only). -/
def dedupAux (seen : List String) : List String → List String
  | [] => []
  | d :: rest =>
    if d ∈ seen then dedupAux seen rest
    else d :: dedupAux (d :: seen) rest

/-- Model of the duplicate-removal block of `analyze_image`. -/
def dedup (l : List String) : List String := dedupAux [] l

theorem dedupAux_not_mem_seen (seen : List String) (l : List String) :
    ∀ x ∈ dedupAux seen l, x ∉ seen := by
  induction l generalizing seen with
  | nil => intro x hx; simp [dedupAux] at hx
  | cons d rest ih =>
    intro x hx
    by_cases hd : d ∈ seen
    · rw [dedupAux, if_pos hd] at hx
      exact ih seen x hx
    · rw [dedupAux, if_neg hd] at hx
      rcases List.mem_cons.mp hx with hx | hx
      · rw [hx]; exact hd
      · intro hs
        exact ih (d :: seen) x hx (List.mem_cons_of_mem d hs)

theorem dedupAux_nodup (seen : List String) (l : List String) :
    (dedupAux seen l).Nodup := by
  induction l generalizing seen with
  | nil => simp [dedupAux]
  | cons d rest ih =>
    by_cases hd : d ∈ seen
    · rw [dedupAux, if_pos hd]; exact ih seen
    · rw [dedupAux, if_neg hd]
      refine List.nodup_cons.mpr ⟨?_, ih (d :: seen)⟩
      intro hmem
      exact dedupAux_not_mem_seen (d :: seen) rest d hmem (List.mem_cons_self d seen)

theorem dedupAux_sublist (seen : List String) (l : List String) :
    (dedupAux seen l).Sublist l := by
  induction l generalizing seen with
  | nil => simp [dedupAux]
  | cons d rest ih =>
    by_cases hd : d ∈ seen
    · rw [dedupAux, if_pos hd]
      exact (ih seen).cons d
    · rw [dedupAux, if_neg hd]
      exact (ih (d :: seen)).cons₂ d

theorem dedupAux_mem (seen : List String) (l : List String) :
    ∀ x ∈ l, x ∈ seen ∨ x ∈ dedupAux seen l := by
  induction l generalizing seen with
  | nil => intro x hx; simp at hx
  | cons d rest ih =>
    intro x hx
    by_cases hd : d ∈ seen
    · rw [dedupAux, if_pos hd]
      rcases List.mem_cons.mp hx with hx | hx
      · left; rw [hx]; exact hd
      · exact ih seen x hx
    · rw [dedupAux, if_neg hd]
      rcases List.mem_cons.mp hx with hx | hx
      · right; rw [hx]; exact List.mem_cons_self d _
      · rcases ih (d :: seen) x hx with hs | hout
        · rcases List.mem_cons.mp hs with hs | hs
          · right; rw [hs]; exact List.mem_cons_self d _
          · left; exact hs
        · right; exact List.mem_cons_of_mem d hout

/-! ## UTF-8 decoding with `errors='ignore'`

All decode paths in the repository turn symbol bytes into text with
`bytes.decode('utf-8', errors='ignore')`: invalid byte sequences are
dropped and the call never raises.  The decoder below is a total
function on arbitrary byte lists (bytes as `Nat` values `< 256`);
surrogate code points and out-of-range values are rejected and
skipped, like Python's strict UTF-8 decoder combined with `ignore`. -/

/-- Classify a byte standing at the start of a UTF-8 sequence:
`Sum.inl (some c)` — a complete ASCII character, `Sum.inl none` — an
invalid lead byte (ignored), `Sum.inr (acc, need)` — a multi-byte lead
with initial accumulator and number of continuation bytes required. -/
def utf8Start (b : Nat) : Option Char ⊕ Nat × Nat :=
  if b < 0x80 then Sum.inl (some (Char.ofNat b))
  else if 0xC2 ≤ b && b ≤ 0xDF then Sum.inr (b - 0xC0, 1)
  else if 0xE0 ≤ b && b ≤ 0xEF then Sum.inr (b - 0xE0, 2)
  else if 0xF0 ≤ b && b ≤ 0xF4 then Sum.inr (b - 0xF0, 3)
  else Sum.inl none

/-- Code points that a strict UTF-8 decoder accepts. -/
def utf8ScalarOk (n : Nat) : Bool := (n < 0xD800 || 0xDFFF < n) && n ≤ 0x10FFFF

/-- State machine of the byte-ignoring UTF-8 decoder; the optional
state is the pending `(accumulator, continuation bytes still needed)`.
A truncated or broken sequence is dropped and decoding restarts at the
offending byte, as CPython's `ignore` error handler does. -/
def utf8Loop : Option (Nat × Nat) → List Nat → List Char
  | _, [] => []
  | none, b :: rest =>
    match utf8Start b with
    | Sum.inl (some c) => c :: utf8Loop none rest
    | Sum.inl none => utf8Loop none rest
    | Sum.inr st => utf8Loop (some st) rest
  | some (acc, need), b :: rest =>
    if 0x80 ≤ b && b ≤ 0xBF then
      let acc' := acc * 64 + (b - 0x80)
      if need ≤ 1 then
        (if utf8ScalarOk acc' then [Char.ofNat acc'] else []) ++ utf8Loop none rest
      else utf8Loop (some (acc', need - 1)) rest
    else
      match utf8Start b with
      | Sum.inl (some c) => c :: utf8Loop none rest
      | Sum.inl none => utf8Loop none rest
      | Sum.inr st => utf8Loop (some st) rest

/-- Model of `data.decode('utf-8', errors='ignore')`: a total function
from byte lists to strings. -/
def utf8DecodeIgnore (bs : List Nat) : String := String.mk (utf8Loop none bs)

/-! ## Decoder backends

`pyzbar.decode` returns a list of symbol objects with a `type` field
(`'QRCODE'`, `'EAN13'`, ...) and raw `data` bytes; a raised exception
is modelled as `Except.error`.  OpenCV's `detectAndDecode` returns a
data string (empty when nothing decoded). -/

/-- A symbol object as returned by `pyzbar.decode`. -/
structure ZbarObj where
  type : String
  data : List Nat
deriving DecidableEq, Repr

/-- Model of `QRCodeAnalyzer.detect_qr_with_pyzbar`
(src/analyze_qr_codes.py lines 87-99): on success keep only symbols
whose `type` is `'QRCODE'`; any exception degrades to `[]`. -/
def detect_qr_with_pyzbar (r : Except String (List ZbarObj)) : List ZbarObj :=
  match r with
  | Except.error _ => []
  | Except.ok objs =>
    if objs.isEmpty then []
    else objs.filter (fun o => o.type = "QRCODE")

/-- Model of `QRCodeAnalyzer.detect_qr_with_opencv`
(src/analyze_qr_codes.py lines 101-122): `detectAndDecode` yields a
data string, returned as a singleton when non-empty; any exception
degrades to `[]`. -/
def detect_qr_with_opencv (r : Except String String) : List String :=
  match r with
  | Except.error _ => []
  | Except.ok data => if data = "" then [] else [data]

/-- Model of `_decode_qr` (src/utils/qr_detector.py lines 69-90):
return the payload of the FIRST decoded symbol — of any barcode kind —
or `none`; any exception degrades to `none`. -/
def qrDetector_decode_qr (r : Except String (List ZbarObj)) : Option String :=
  match r with
  | Except.error _ => none
  | Except.ok [] => none
  | Except.ok (o :: _) => some (utf8DecodeIgnore o.data)

/-- Model of `detect_and_decode_qr` (src/utils/qr_detector.py lines
16-66).  `conv` stands for the image-conversion prelude, `d1` for the
`pyzbar` call on the grayscale image, `enh` for `_enhance_image`, and
`d2` for the `pyzbar` call on the enhanced image; an exception in the
prelude or the enhancement is caught by the outer handler, one inside
a decode attempt by `_decode_qr` itself. -/
def detect_and_decode_qr (conv : Except String Unit)
    (d1 : Except String (List ZbarObj)) (enh : Except String Unit)
    (d2 : Except String (List ZbarObj)) : Option String :=
  match conv with
  | Except.error _ => none
  | Except.ok _ =>
    match qrDetector_decode_qr d1 with
    | some s => some s
    | none =>
      match enh with
      | Except.error _ => none
      | Except.ok _ => qrDetector_decode_qr d2

/-! ## Pipeline orchestrator — `QRCodeAnalyzer.analyze_image`
(src/analyze_qr_codes.py lines 161-199) and `enhance_image`
(lines 124-159).

The image type is abstract; the barcode libraries and the PIL
enhancement operations are oracles bundled in `Backend`.  Each PIL
enhancement sits in its own `try/except: pass` block, so it either
contributes a variant or is skipped — hence `Option Img`.
`analyze_image` is instrumented with a trace of decoder invocations,
one event per `detect_qr_with_pyzbar` / `detect_qr_with_opencv`
call. -/

/-- A decoder invocation recorded by the instrumented orchestrator. -/
inductive DecodeEv (Img : Type) where
  | pyz (i : Img)
  | ocv (i : Img)
deriving DecidableEq, Repr

/-- Oracles for the libraries used by `QRCodeAnalyzer`. -/
structure Backend (Img : Type) where
  pyzbarDecode : Img → Except String (List ZbarObj)
  opencvDetect : Img → Except String String
  grayscale : Img → Option Img
  contrast2 : Img → Option Img
  brightness15 : Img → Option Img
  sharpness2 : Img → Option Img

/-- Payload strings produced by one `detect_qr_with_pyzbar` call as
`analyze_image` consumes them:
`[obj.data.decode('utf-8', errors='ignore') for obj in qr_codes]`. -/
def pyzbarPayloads {Img : Type} (B : Backend Img) (i : Img) : List String :=
  (detect_qr_with_pyzbar (B.pyzbarDecode i)).map (fun o => utf8DecodeIgnore o.data)

/-- Model of `QRCodeAnalyzer.enhance_image`: the original image
followed by the best-effort grayscale, contrast 2.0x, brightness 1.5x
and sharpness 2.0x variants, in this fixed order. -/
def enhance_image {Img : Type} (B : Backend Img) (img : Img) : List Img :=
  [img] ++ (B.grayscale img).toList ++ (B.contrast2 img).toList
    ++ (B.brightness15 img).toList ++ (B.sharpness2 img).toList

/-- Stage 2 of `analyze_image`: run the primary decoder on each
enhancement variant in order and break at the first variant that
yields symbols.  Returns the invocation trace and the payloads. -/
def stage2 {Img : Type} (B : Backend Img) : List Img → List (DecodeEv Img) × List String
  | [] => ([], [])
  | v :: rest =>
    let r := pyzbarPayloads B v
    if r.isEmpty then
      let t := stage2 B rest
      (DecodeEv.pyz v :: t.1, t.2)
    else ([DecodeEv.pyz v], r)

/-- Instrumented model of `QRCodeAnalyzer.analyze_image`: stage 1 runs
the primary decoder on the original image, stage 2 (entered only when
stage 1 collected nothing) walks the enhancement variants, stage 3
(entered only when stages 1-2 collected nothing) runs the OpenCV
backend once; the collected payloads are deduplicated. -/
def analyze_image {Img : Type} (B : Backend Img) (img : Img) :
    List (DecodeEv Img) × List String :=
  let all1 := pyzbarPayloads B img
  let t1 : List (DecodeEv Img) := [DecodeEv.pyz img]
  let s2 : List (DecodeEv Img) × List String :=
    if all1.isEmpty then
      let s := stage2 B (enhance_image B img)
      (t1 ++ s.1, all1 ++ s.2)
    else (t1, all1)
  let s3 : List (DecodeEv Img) × List String :=
    if s2.2.isEmpty then
      (s2.1 ++ [DecodeEv.ocv img], s2.2 ++ detect_qr_with_opencv (B.opencvDetect img))
    else s2
  (s3.1, dedup s3.2)

theorem stage2_all_empty {Img : Type} (B : Backend Img) (l : List Img)
    (h : ∀ v ∈ l, pyzbarPayloads B v = []) :
    stage2 B l = (l.map DecodeEv.pyz, []) := by
  induction l with
  | nil => rfl
  | cons v rest ih =>
    have hv : pyzbarPayloads B v = [] := h v (List.mem_cons_self v rest)
    have hrest := ih fun u hu => h u (List.mem_cons_of_mem v hu)
    rw [stage2]
    simp [hv, hrest]

theorem stage2_first_hit {Img : Type} (B : Backend Img) (pre : List Img) (v : Img)
    (post : List Img) (hpre : ∀ u ∈ pre, pyzbarPayloads B u = [])
    (hv : pyzbarPayloads B v ≠ []) :
    stage2 B (pre ++ v :: post) =
      (pre.map DecodeEv.pyz ++ [DecodeEv.pyz v], pyzbarPayloads B v) := by
  induction pre with
  | nil =>
    rw [List.nil_append, stage2]
    simp [hv]
  | cons u rest ih =>
    have hu : pyzbarPayloads B u = [] := hpre u (List.mem_cons_self u rest)
    have hrest := ih fun w hw => hpre w (List.mem_cons_of_mem u hw)
    rw [List.cons_append, stage2]
    simp [hu, hrest]

/-! ## Fetcher retry loops

The network is an oracle mapping the 0-based attempt number to its
outcome.  Each model returns the number of GET attempts issued, the
list of sleep durations (seconds) performed between attempts, and the
final result (`some ()` — an image was returned, `none` — failure
without raising). -/

/-- Outcome of one HTTP GET attempt, matching the `except` arms of the
two downloaders: `requests.exceptions.Timeout`,
`requests.exceptions.RequestException`, and any other exception. -/
inductive AttemptOutcome where
  | success
  | timeout
  | reqError
  | otherError
deriving DecidableEq, Repr

/-- Retry loop of `download_image` (src/utils/image_downloader.py
lines 45-81): `while attempt <= max_retries`, a constant
`time.sleep(1)` before each retry after a timeout, immediate `None` on
any non-timeout failure.  The second argument is the current attempt
number, the third the number of loop iterations still permitted
(`max_retries + 1 - attempt`). -/
def utilsLoop (oracle : Nat → AttemptOutcome) : Nat → Nat → Nat × List Nat × Option Unit
  | _, 0 => (0, [], none)
  | attempt, rem + 1 =>
    match oracle attempt with
    | AttemptOutcome.success => (1, [], some ())
    | AttemptOutcome.timeout =>
      let t := utilsLoop oracle (attempt + 1) rem
      (t.1 + 1, (if rem = 0 then [] else [1]) ++ t.2.1, t.2.2)
    | AttemptOutcome.reqError => (1, [], none)
    | AttemptOutcome.otherError => (1, [], none)

/-- Model of `download_image`'s retry behaviour after URL validation
has passed (src/utils/image_downloader.py). -/
def utilsDownload (oracle : Nat → AttemptOutcome) (maxRetries : Nat) :
    Nat × List Nat × Option Unit :=
  utilsLoop oracle 0 (maxRetries + 1)

/-- Retry loop of `QRCodeAnalyzer.download_image`
(src/analyze_qr_codes.py lines 52-85): `for attempt in
range(MAX_RETRIES)`, sleeping `RETRY_DELAY * (attempt + 1)` before
each retry after a timeout or request error, immediate `None` on any
other exception.  The third argument is the current attempt number,
the fourth the number of loop iterations left (`MAX_RETRIES -
attempt`). -/
def analyzerLoop (oracle : Nat → AttemptOutcome) (base : Nat) :
    Nat → Nat → Nat × List Nat × Option Unit
  | _, 0 => (0, [], none)
  | attempt, rem + 1 =>
    match oracle attempt with
    | AttemptOutcome.success => (1, [], some ())
    | AttemptOutcome.timeout =>
      if rem = 0 then (1, [], none)
      else
        let t := analyzerLoop oracle base (attempt + 1) rem
        (t.1 + 1, base * (attempt + 1) :: t.2.1, t.2.2)
    | AttemptOutcome.reqError =>
      if rem = 0 then (1, [], none)
      else
        let t := analyzerLoop oracle base (attempt + 1) rem
        (t.1 + 1, base * (attempt + 1) :: t.2.1, t.2.2)
    | AttemptOutcome.otherError => (1, [], none)

/-- Model of `QRCodeAnalyzer.download_image` with retry-delay base
`base` (`RETRY_DELAY = 2`) and loop bound `maxRetries`
(`MAX_RETRIES = 3`). -/
def analyzerDownload (oracle : Nat → AttemptOutcome) (base maxRetries : Nat) :
    Nat × List Nat × Option Unit :=
  analyzerLoop oracle base 0 maxRetries

/-- Decide whether a list of sleep durations is strictly increasing. -/
def strictIncr : List Nat → Bool
  | [] => true
  | [_] => true
  | a :: b :: t => Nat.blt a b && strictIncr (b :: t)

theorem utilsLoop_all_timeout (oracle : Nat → AttemptOutcome)
    (h : ∀ k, oracle k = AttemptOutcome.timeout) :
    ∀ rem attempt, utilsLoop oracle attempt (rem + 1) =
      (rem + 1, List.replicate rem 1, none) := by
  intro rem
  induction rem with
  | zero => intro attempt; rw [utilsLoop, h attempt]; simp [utilsLoop]
  | succ n ih =>
    intro attempt
    rw [utilsLoop, h attempt]
    simp only [ih (attempt + 1)]
    simp [List.replicate_succ]

/-! ## URL validation — `download_image` and the row loop of
`qr_processor.process_excel`.

`download_image` (src/utils/image_downloader.py lines 28-36) rejects
`None`/non-string/empty values, strips the URL and rejects it unless
the stripped form starts with `http://` or `https://`; only then is an
HTTP GET issued.  The value a GET would be issued for is returned as
`some url`; `none` means the function returns `None` with no network
call. -/

/-- A Python value held in the URL cell as seen by `download_image`. -/
inductive PyValue where
  | vNone
  | vNonStr
  | vStr (s : String)
deriving DecidableEq, Repr

/-- URL-validation front end of `download_image`: the returned
`some u` is the URL an HTTP GET is issued for; `none` means the call
returns `None` before any network activity. -/
def downloadGateway : PyValue → Option String
  | PyValue.vNone => none
  | PyValue.vNonStr => none
  | PyValue.vStr s =>
    if s = "" then none
    else
      let t := pyStrip s
      if pyStartsWith t "http://" || pyStartsWith t "https://" then some t
      else none

/-- Classification a row reaches in `qr_processor.process_excel`
before (or instead of) any decoding work. -/
inductive RowClass where
  | skippedEmpty
  | downloadError
  | netAttempt
deriving DecidableEq, Repr

/-- Row gate of `qr_processor.process_excel` (src/qr_processor.py
lines 84-105): a row whose cell is NaN or whose string form strips to
empty is skipped; otherwise `download_image` is called on the stripped
string.  `isna` is `pd.isna(url)`; `sval` is `str(url)`.  The second
component is the URL an HTTP GET is issued for, if any. -/
def rowFirstStep (isna : Bool) (sval : String) : RowClass × Option String :=
  if isna || pyStrip sval = "" then (RowClass.skippedEmpty, none)
  else
    match downloadGateway (PyValue.vStr (pyStrip sval)) with
    | none => (RowClass.downloadError, none)
    | some u => (RowClass.netAttempt, some u)

/-! ## Code extraction — `QRCodeProcessor.decode_qr_code` and
`process_image` (src/process_qr_codes.py).

The regular-expression searches used there are modelled as explicit
leftmost scans:
  * `re.search(r'\b[A-Z0-9]\x7b10\x7d\b', s)` — a word-bounded run of
    exactly 10 characters from the class (optionally matched
    case-insensitively, as method 3 does with `re.IGNORECASE`);
  * `re.search(r'label[:\s]*([A-Z0-9]\x7b8,12\x7d)', s, re.IGNORECASE)`
    for `label` in `code`, `id` — the label matched
    case-insensitively, any run of colons/whitespace, then a greedy
    8-to-12-character alphanumeric group. -/

/-- Python `\w` over ASCII: the word characters deciding `\b`. -/
def isWordChar (c : Char) : Bool :=
  ('A' ≤ c && c ≤ 'Z') || ('a' ≤ c && c ≤ 'z') || ('0' ≤ c && c ≤ '9') || c = '_'

/-- Membership in the class `[A-Z0-9]`, with `ci` adding the lowercase
letters that `re.IGNORECASE` lets through. -/
def isTokenChar (ci : Bool) (c : Char) : Bool :=
  ('A' ≤ c && c ≤ 'Z') || ('0' ≤ c && c ≤ '9') || (ci && 'a' ≤ c && c ≤ 'z')

/-- Does `\b[A-Z0-9]\x7b10\x7d\b` match starting at the head of `l`
(the boundary before the head is checked by the caller)? -/
def tenTokenAt (ci : Bool) (l : List Char) : Bool :=
  (l.take 10).length = 10 && (l.take 10).all (isTokenChar ci) &&
    (match l.drop 10 with
     | [] => true
     | c :: _ => !isWordChar c)

/-- Leftmost scan for the 10-character token; `prev` is the character
preceding the current position, used for the leading `\b`. -/
def tenTokenScan (ci : Bool) : Option Char → List Char → Option (List Char)
  | _, [] => none
  | prev, c :: rest =>
    if (match prev with | none => true | some p => !isWordChar p)
        && tenTokenAt ci (c :: rest) then
      some ((c :: rest).take 10)
    else tenTokenScan ci (some c) rest

/-- Model of `re.search(r'\b[A-Z0-9]\x7b10\x7d\b', s)` returning
`group(0)`; `ci` selects the `re.IGNORECASE` variant. -/
def searchTen (ci : Bool) (s : String) : Option String :=
  (tenTokenScan ci none s.toList).map String.mk

/-- Leftmost scan for `label[:\s]*([A-Z0-9]\x7b8,12\x7d)` under
`re.IGNORECASE`, returning `group(1)`.  The separator class and the
token class are disjoint, so the greedy scan needs no backtracking. -/
def labelScan (label : List Char) : List Char → Option (List Char)
  | [] => none
  | c :: rest =>
    let l := c :: rest
    if (l.take label.length).map Char.toLower = label then
      let afterSep := (l.drop label.length).dropWhile (fun d => d = ':' || isPySpace d)
      let tok := (afterSep.takeWhile (isTokenChar true)).take 12
      if 8 ≤ tok.length then some tok else labelScan label rest
    else labelScan label rest

/-- Model of the labelled-code search for a lowercase `label`. -/
def searchLabelTok (label : String) (s : String) : Option String :=
  (labelScan label.toList s.toList).map String.mk

/-- Output of `cv2.QRCodeDetector().detectAndDecode`: a payload string
(empty when nothing was decoded) and whether a bounding box was
reported. -/
structure CvOut where
  data : String
  hasBbox : Bool
deriving DecidableEq, Repr

/-- First symbol with `obj.type == 'QRCODE'`, per the `for`/`break`
loop of method 1 of `decode_qr_code`. -/
def firstQrObj : List ZbarObj → Option ZbarObj
  | [] => none
  | o :: rest => if o.type = "QRCODE" then some o else firstQrObj rest

/-- Model of `QRCodeProcessor.decode_qr_code`
(src/process_qr_codes.py lines 75-146), with both libraries available:
method 1 (pyzbar, case-sensitive 10-token search on the first QR
symbol's payload), method 2 (OpenCV, entered only when pyzbar detected
nothing), method 3 (the `re.IGNORECASE` pattern loop, entered when a
symbol was detected but no code extracted yet).  Returns
`(qr_detected, decoded_data, extracted_code)`. -/
def decode_qr_code (objs : List ZbarObj) (cv : CvOut) :
    Bool × Option String × Option String :=
  let qr1 := !objs.isEmpty
  let dd1 : Option String := (firstQrObj objs).map (fun o => utf8DecodeIgnore o.data)
  let ec1 : Option String := dd1.bind (fun d => searchTen false d)
  let m2 : Bool × Option String × Option String :=
    if qr1 then (qr1, dd1, ec1)
    else if cv.data ≠ "" then (true, some cv.data, searchTen false cv.data)
    else if cv.hasBbox then (true, none, none)
    else (false, none, none)
  let ec3 : Option String :=
    if m2.1 && m2.2.2.isNone then
      match m2.2.1 with
      | none => m2.2.2
      | some d =>
        match searchTen true d with
        | some t => some (pyUpper t)
        | none =>
          match searchLabelTok "code" d with
          | some t => some (pyUpper t)
          | none =>
            match searchLabelTok "id" d with
            | some t => some (pyUpper t)
            | none => none
    else m2.2.2
  (m2.1, m2.2.1, ec3)

/-- Model of the result-recording part of
`QRCodeProcessor.process_image` (src/process_qr_codes.py lines
148-177): the extracted code, when present, supersedes the decoded
payload, which is otherwise stored truncated to its first 50
characters; returns `(sticker_detected, qr_code)`. -/
def process_image_qr (objs : List ZbarObj) (cv : CvOut) : Bool × String :=
  let r := decode_qr_code objs cv
  let stored : String :=
    match r.2.2 with
    | some c => c
    | none =>
      match r.2.1 with
      | some d => if d ≠ "" then String.mk (d.toList.take 50) else ""
      | none => ""
  (r.1, stored)

/-- Extraction chain of the code, flattened: case-sensitive 10-token,
then the three `re.IGNORECASE` patterns with upper-casing. -/
def ecChain (d : String) : Option String :=
  match searchTen false d with
  | some t => some t
  | none =>
    match searchTen true d with
    | some t => some (pyUpper t)
    | none =>
      match searchLabelTok "code" d with
      | some t => some (pyUpper t)
      | none =>
        match searchLabelTok "id" d with
        | some t => some (pyUpper t)
        | none => none

/-- Extractor that C8 describes, written from the claim's words: first
a word-bounded token of exactly 10 contiguous UPPER-case
letters/digits, and only if none is found, a `code:`/`id:`-labelled
token of 8-12 alphanumerics; the found token is stored upper-cased. -/
def claimExtractC8 (d : String) : Option String :=
  match searchTen false d with
  | some t => some (pyUpper t)
  | none =>
    match searchLabelTok "code" d with
    | some t => some (pyUpper t)
    | none =>
      match searchLabelTok "id" d with
      | some t => some (pyUpper t)
      | none => none

theorem decode_qr_code_of_firstQr (objs : List ZbarObj) (cv : CvOut) (o : ZbarObj)
    (h : firstQrObj objs = some o) :
    decode_qr_code objs cv =
      (true, some (utf8DecodeIgnore o.data), ecChain (utf8DecodeIgnore o.data)) := by
  have hne : objs.isEmpty = false := by
    cases objs with
    | nil => simp [firstQrObj] at h
    | cons a t => rfl
  unfold decode_qr_code
  rw [h, hne]
  unfold ecChain
  cases hcs : searchTen false (utf8DecodeIgnore o.data) with
  | some t => simp [hcs]
  | none =>
    simp only [hcs]
    simp
    intro hc
    exact absurd hcs hc

/-! ## Run statistics

`QRCodeAnalyzer.process_excel` (src/analyze_qr_codes.py lines 241-277)
updates `self.results` per row; `qr_processor.process_excel`
(src/qr_processor.py lines 74-131) keeps its own `stats` dict whose
`total` is set to `len(df)` once, up front. -/

/-- Counters of `QRCodeAnalyzer.results`. -/
structure RunStats where
  total_processed : Nat
  qr_codes_found : Nat
  multiple_qr_found : Nat
  not_found : Nat
  errors : Nat
  corrupted_images : Nat
deriving DecidableEq, Repr

/-- All-zero initial value of `QRCodeAnalyzer.results`. -/
def runStatsInit : RunStats := ⟨0, 0, 0, 0, 0, 0⟩

/-- What a row of `QRCodeAnalyzer.process_excel` amounts to for the
statistics: a missing URL, a failed download, an analysis exception,
or a completed analysis with its payload list. -/
inductive RowEvent where
  | missingUrl
  | downloadFailed
  | analysisException
  | analyzed (payloads : List String)
deriving DecidableEq, Repr

/-- Per-row statistics update of `QRCodeAnalyzer.process_excel`.  The
missing-URL branch executes `continue` before the unconditional
`total_processed` increment at the end of the loop body, so only the
other three branches bump `total_processed`. -/
def processRow (st : RunStats) : RowEvent → RunStats
  | RowEvent.missingUrl => { st with errors := st.errors + 1 }
  | RowEvent.downloadFailed =>
    { st with errors := st.errors + 1, total_processed := st.total_processed + 1 }
  | RowEvent.analysisException =>
    { st with errors := st.errors + 1, total_processed := st.total_processed + 1 }
  | RowEvent.analyzed ps =>
    let rt := format_qr_result ps
    let st1 :=
      if rt = "NOT_FOUND" then { st with not_found := st.not_found + 1 }
      else if strContains " QR codes found" rt then
        { st with qr_codes_found := st.qr_codes_found + 1,
                  multiple_qr_found := st.multiple_qr_found + 1 }
      else { st with qr_codes_found := st.qr_codes_found + 1 }
    { st1 with total_processed := st1.total_processed + 1 }

/-- Rows whose branch reaches the `continue` that skips the
`total_processed` increment. -/
def isMissingUrl : RowEvent → Bool
  | RowEvent.missingUrl => true
  | _ => false

/-- Componentwise order on the counters: every counter of `a` is at
most the corresponding counter of `b`. -/
def statsLe (a b : RunStats) : Prop :=
  a.total_processed ≤ b.total_processed ∧ a.qr_codes_found ≤ b.qr_codes_found ∧
    a.multiple_qr_found ≤ b.multiple_qr_found ∧ a.not_found ≤ b.not_found ∧
    a.errors ≤ b.errors ∧ a.corrupted_images ≤ b.corrupted_images

theorem processRow_total (st : RunStats) (r : RowEvent) :
    (processRow st r).total_processed =
      st.total_processed + (if isMissingUrl r then 0 else 1) := by
  cases r with
  | missingUrl => simp [processRow, isMissingUrl]
  | downloadFailed => simp [processRow, isMissingUrl]
  | analysisException => simp [processRow, isMissingUrl]
  | analyzed ps =>
    simp only [processRow, isMissingUrl]
    split
    · simp
    · split <;> simp

theorem processRow_mono (st : RunStats) (r : RowEvent) : statsLe st (processRow st r) := by
  cases r with
  | missingUrl => simp [processRow, statsLe]
  | downloadFailed => simp [processRow, statsLe]
  | analysisException => simp [processRow, statsLe]
  | analyzed ps =>
    simp only [processRow, statsLe]
    split
    · simp
    · split <;> simp

theorem statsLe_trans {a b c : RunStats} (h1 : statsLe a b) (h2 : statsLe b c) :
    statsLe a c := by
  obtain ⟨x1, x2, x3, x4, x5, x6⟩ := h1
  obtain ⟨y1, y2, y3, y4, y5, y6⟩ := h2
  exact ⟨x1.trans y1, x2.trans y2, x3.trans y3, x4.trans y4, x5.trans y5, x6.trans y6⟩

theorem foldl_processRow_total (rows : List RowEvent) :
    ∀ st : RunStats, (List.foldl processRow st rows).total_processed =
      st.total_processed + rows.countP (fun r => !isMissingUrl r) := by
  induction rows with
  | nil => intro st; simp
  | cons r rest ih =>
    intro st
    rw [List.foldl_cons, ih, processRow_total]
    rw [List.countP_cons]
    cases hr : isMissingUrl r
    · simp [hr]
      omega
    · simp [hr]

theorem foldl_processRow_mono (rows : List RowEvent) :
    ∀ st : RunStats, statsLe st (List.foldl processRow st rows) := by
  induction rows with
  | nil =>
    intro st
    exact ⟨le_refl _, le_refl _, le_refl _, le_refl _, le_refl _, le_refl _⟩
  | cons r rest ih =>
    intro st
    exact statsLe_trans (processRow_mono st r) (ih (processRow st r))

/-- Counters of the `stats` dict of `qr_processor.process_excel`. -/
structure ProcStats where
  total : Nat
  qr_found : Nat
  no_qr : Nat
  errors : Nat
  skipped : Nat
deriving DecidableEq, Repr

/-- What a row of `qr_processor.process_excel` amounts to for the
statistics. -/
inductive ProcRowEvent where
  | emptyUrl
  | downloadFail
  | qrFound
  | noQr
  | rowException
deriving DecidableEq, Repr

/-- Per-row statistics update of `qr_processor.process_excel`; the
`total` field is never touched inside the loop. -/
def procStep (st : ProcStats) : ProcRowEvent → ProcStats
  | ProcRowEvent.emptyUrl => { st with skipped := st.skipped + 1 }
  | ProcRowEvent.downloadFail => { st with errors := st.errors + 1 }
  | ProcRowEvent.qrFound => { st with qr_found := st.qr_found + 1 }
  | ProcRowEvent.noQr => { st with no_qr := st.no_qr + 1 }
  | ProcRowEvent.rowException => { st with errors := st.errors + 1 }

/-- Full statistics run of `qr_processor.process_excel` over an input
of `n` rows: `stats = dict(total=len(df), ...zeroes...)` followed by
the per-row updates. -/
def procRun (n : Nat) (rows : List ProcRowEvent) : ProcStats :=
  List.foldl procStep ⟨n, 0, 0, 0, 0⟩ rows

theorem foldl_procStep_total (rows : List ProcRowEvent) :
    ∀ st : ProcStats, (List.foldl procStep st rows).total = st.total := by
  induction rows with
  | nil => intro st; rfl
  | cons r rest ih =>
    intro st
    rw [List.foldl_cons, ih]
    cases r <;> rfl

/-- Componentwise order on the `qr_processor.process_excel` counters:
every counter of `a` is at most the corresponding counter of `b`. -/
def procStatsLe (a b : ProcStats) : Prop :=
  a.total ≤ b.total ∧ a.qr_found ≤ b.qr_found ∧ a.no_qr ≤ b.no_qr ∧
    a.errors ≤ b.errors ∧ a.skipped ≤ b.skipped

theorem procStep_mono (st : ProcStats) (r : ProcRowEvent) :
    procStatsLe st (procStep st r) := by
  cases r <;> simp [procStep, procStatsLe]

theorem procStatsLe_trans {a b c : ProcStats} (h1 : procStatsLe a b)
    (h2 : procStatsLe b c) : procStatsLe a c := by
  obtain ⟨x1, x2, x3, x4, x5⟩ := h1
  obtain ⟨y1, y2, y3, y4, y5⟩ := h2
  exact ⟨x1.trans y1, x2.trans y2, x3.trans y3, x4.trans y4, x5.trans y5⟩

theorem foldl_procStep_mono (rows : List ProcRowEvent) :
    ∀ st : ProcStats, procStatsLe st (List.foldl procStep st rows) := by
  induction rows with
  | nil =>
    intro st
    exact ⟨le_refl _, le_refl _, le_refl _, le_refl _, le_refl _⟩
  | cons r rest ih =>
    intro st
    exact procStatsLe_trans (procStep_mono st r) (ih (procStep st r))

/-! ## Claim theorems -/

/-- C1: `format_qr_result` maps the empty payload list to
`"NOT_FOUND"`, a one-element list to its single payload verbatim, and
a list of `n ≥ 2` payloads to `"<n> QR codes found"` — in particular
exactly `"2 QR codes found"` for two payloads. -/
theorem c1_format_qr_result_classification :
    format_qr_result [] = "NOT_FOUND" ∧
    (∀ d : String, format_qr_result [d] = d) ∧
    (∀ l : List String, 2 ≤ l.length →
      format_qr_result l = toString l.length ++ " QR codes found") ∧
    format_qr_result ["a", "b"] = "2 QR codes found" := by
  refine ⟨rfl, fun d => rfl, ?_, by decide⟩
  intro l hl
  match l with
  | [] => simp at hl
  | [d] => simp at hl
  | a :: b :: t => rfl

/-- Witness for C1 at the three-element list. -/
theorem c1_witness :
    2 ≤ (["x", "y", "z"] : List String).length ∧
    format_qr_result ["x", "y", "z"] =
      toString (["x", "y", "z"] : List String).length ++ " QR codes found" :=
  ⟨by decide, c1_format_qr_result_classification.2.2.1 ["x", "y", "z"] (by decide)⟩

/-- C3: the deduplication step of `analyze_image` returns the sublist
of first occurrences — no duplicates, first-seen order preserved
(sublist of the input), every input string present — and in particular
`["A","B","A"]` yields exactly `["A","B"]`. -/
theorem c3_dedup_first_occurrences (l : List String) :
    (dedup l).Nodup ∧ (dedup l).Sublist l ∧ (∀ x ∈ l, x ∈ dedup l) ∧
    dedup ["A", "B", "A"] = ["A", "B"] := by
  refine ⟨dedupAux_nodup [] l, dedupAux_sublist [] l, ?_, by decide⟩
  intro x hx
  rcases dedupAux_mem [] l x hx with hs | h
  · simp at hs
  · exact h

/-- Witness for C3: membership of each input element at a concrete
list. -/
theorem c3_witness : "B" ∈ dedup ["A", "B", "A"] :=
  (c3_dedup_first_occurrences ["A", "B", "A"]).2.2.1 "B" (by decide)

/-- C4: when the primary decoder finds no payload on the original
bitmap, `analyze_image` runs the primary decoder over the enhancement
variants in their fixed order, stopping at the first variant with a
payload — the invocation trace ends at that variant, later variants
are never decoded, and the OpenCV backend is invoked exactly when no
variant produced a payload.  The final conjunct records the fixed
variant order when every enhancement succeeds. -/
theorem c4_enhancement_short_circuit {Img : Type} (B : Backend Img) (img : Img)
    (h1 : pyzbarPayloads B img = []) :
    (∀ pre (v : Img) post, enhance_image B img = pre ++ v :: post →
      (∀ u ∈ pre, pyzbarPayloads B u = []) → pyzbarPayloads B v ≠ [] →
      (analyze_image B img).1 =
        DecodeEv.pyz img :: (pre.map DecodeEv.pyz ++ [DecodeEv.pyz v]) ∧
      (analyze_image B img).2 = dedup (pyzbarPayloads B v)) ∧
    ((∀ u ∈ enhance_image B img, pyzbarPayloads B u = []) →
      (analyze_image B img).1 =
        DecodeEv.pyz img :: ((enhance_image B img).map DecodeEv.pyz ++ [DecodeEv.ocv img])) ∧
    (∀ g c bb sh, B.grayscale img = some g → B.contrast2 img = some c →
      B.brightness15 img = some bb → B.sharpness2 img = some sh →
      enhance_image B img = [img, g, c, bb, sh]) := by
  refine ⟨?_, ?_, ?_⟩
  · intro pre v post henh hpre hv
    have hfh := stage2_first_hit B pre v post hpre hv
    have hv' : (pyzbarPayloads B v).isEmpty = false := by
      cases hpv : pyzbarPayloads B v with
      | nil => exact absurd hpv hv
      | cons a t => rfl
    rw [← henh] at hfh
    constructor
    · simp [analyze_image, h1, hfh, hv']
    · simp [analyze_image, h1, hfh, hv']
  · intro hall
    have hse := stage2_all_empty B (enhance_image B img) hall
    simp [analyze_image, h1, hse]
  · intro g c bb sh hg hc hb hs
    simp [enhance_image, hg, hc, hb, hs]

/-- Backend fixture for the C4 witness: the decoder succeeds only on
variant `2` (the contrast variant). -/
def witnessBackend : Backend Nat where
  pyzbarDecode := fun i => if i = 2 then Except.ok [⟨"QRCODE", [88]⟩] else Except.ok []
  opencvDetect := fun _ => Except.ok ""
  grayscale := fun _ => some 1
  contrast2 := fun _ => some 2
  brightness15 := fun _ => some 3
  sharpness2 := fun _ => some 4

/-- Witness for C4: with variants `[0,1,2,3,4]` and the first hit at
variant `2`, the decoder runs on the original and on variants `0`,
`1`, `2` only. -/
theorem c4_witness :
    (analyze_image witnessBackend 0).1 =
      DecodeEv.pyz 0 :: ([0, 1].map DecodeEv.pyz ++ [DecodeEv.pyz 2]) :=
  ((c4_enhancement_short_circuit witnessBackend 0 (by decide)).1 [0, 1] 2 [3, 4]
    (by decide) (by decide) (by decide)).1

theorem analyzerLoop_all_timeout (oracle : Nat → AttemptOutcome) (base : Nat)
    (h : ∀ k, oracle k = AttemptOutcome.timeout) :
    ∀ rem attempt, analyzerLoop oracle base attempt (rem + 1) =
      (rem + 1, (List.range rem).map (fun j => base * (attempt + 1 + j)), none) := by
  intro rem
  induction rem with
  | zero => intro attempt; rw [analyzerLoop, h attempt]; simp
  | succ n ih =>
    intro attempt
    rw [analyzerLoop, h attempt]
    simp only [Nat.succ_ne_zero, if_neg, ih (attempt + 1)]
    simp [List.range_succ_eq_map, List.map_map]
    intro a ha
    omega

/-- C2 counterexample: with every attempt timing out,
`utils/image_downloader.download_image` at `max_retries = 2` sleeps
`[1, 1]` — not strictly increasing — and
`QRCodeAnalyzer.download_image` at `MAX_RETRIES = 3`, `RETRY_DELAY =
2` makes 3 attempts, not `3 + 1`; so neither fetcher satisfies the
claimed conjunction of `maxRetries + 1` attempts and strictly
increasing delays. -/
theorem c2_counterexample :
    ¬ ((utilsDownload (fun _ => AttemptOutcome.timeout) 2).1 = 2 + 1 ∧
       strictIncr (utilsDownload (fun _ => AttemptOutcome.timeout) 2).2.1 = true ∧
       (utilsDownload (fun _ => AttemptOutcome.timeout) 2).2.2 = none) ∧
    ¬ ((analyzerDownload (fun _ => AttemptOutcome.timeout) 2 3).1 = 3 + 1 ∧
       strictIncr (analyzerDownload (fun _ => AttemptOutcome.timeout) 2 3).2.1 = true ∧
       (analyzerDownload (fun _ => AttemptOutcome.timeout) 2 3).2.2 = none) := by
  decide

/-- C2 (amended): for every URL whose fetch times out on every
attempt, `utils/image_downloader.download_image` makes exactly
`max_retries + 1` GET attempts with a constant 1-second sleep between
consecutive attempts and returns `None` without raising, while
`QRCodeAnalyzer.download_image` makes exactly `MAX_RETRIES = 3`
attempts with the strictly increasing sleeps `RETRY_DELAY * k`,
`k = 1, 2`, and returns `None` without raising. -/
theorem c2_retry_schedules (oracle : Nat → AttemptOutcome)
    (h : ∀ k, oracle k = AttemptOutcome.timeout) (m : Nat) :
    utilsDownload oracle m = (m + 1, List.replicate m 1, none) ∧
    analyzerDownload oracle 2 3 = (3, [2, 4], none) ∧
    strictIncr [2, 4] = true := by
  refine ⟨utilsLoop_all_timeout oracle h m 0, ?_, rfl⟩
  show analyzerLoop oracle 2 0 (2 + 1) = (3, [2, 4], none)
  rw [analyzerLoop_all_timeout oracle 2 h 2 0]
  decide

/-- Witness for C2 at the constant-timeout oracle and
`max_retries = 2`. -/
theorem c2_witness :
    utilsDownload (fun _ => AttemptOutcome.timeout) 2 = (3, [1, 1], none) ∧
    analyzerDownload (fun _ => AttemptOutcome.timeout) 2 3 = (3, [2, 4], none) := by
  have h := c2_retry_schedules (fun _ => AttemptOutcome.timeout) (fun _ => rfl) 2
  refine ⟨?_, h.2.1⟩
  rw [h.1]
  decide

theorem gateway_none_of_not_http (s : String)
    (h1 : pyStartsWith (pyStrip s) "http://" = false)
    (h2 : pyStartsWith (pyStrip s) "https://" = false) :
    downloadGateway (PyValue.vStr s) = none := by
  simp only [downloadGateway]
  by_cases hs : s = ""
  · rw [if_pos hs]
  · rw [if_neg hs]
    simp [h1, h2]

/-- C5 counterexample: the URL `" http://a"` does not begin with
`http://` or `https://` (it begins with a space), yet both
`download_image` and the `qr_processor.process_excel` row path strip
it and issue an HTTP GET for it, so the claim's "no network call for
URLs not beginning with http:// or https://" fails as stated. -/
theorem c5_counterexample :
    pyStartsWith " http://a" "http://" = false ∧
    pyStartsWith " http://a" "https://" = false ∧
    downloadGateway (PyValue.vStr " http://a") = some "http://a" ∧
    rowFirstStep false " http://a" = (RowClass.netAttempt, some "http://a") := by
  decide

/-- C5 (amended): for every row whose URL is empty, missing
(None/NaN), non-string, or whose whitespace-stripped form does not
begin with `http://` or `https://`, the pipeline classifies the row as
skipped or failed and issues no HTTP GET. -/
theorem c5_no_network_for_invalid_urls :
    downloadGateway PyValue.vNone = none ∧
    downloadGateway PyValue.vNonStr = none ∧
    downloadGateway (PyValue.vStr "") = none ∧
    (∀ s : String, pyStartsWith (pyStrip s) "http://" = false →
       pyStartsWith (pyStrip s) "https://" = false →
       downloadGateway (PyValue.vStr s) = none) ∧
    (∀ sval : String, rowFirstStep true sval = (RowClass.skippedEmpty, none)) ∧
    (∀ sval : String, pyStrip sval = "" →
       rowFirstStep false sval = (RowClass.skippedEmpty, none)) ∧
    (∀ sval : String, pyStartsWith (pyStrip sval) "http://" = false →
       pyStartsWith (pyStrip sval) "https://" = false →
       (rowFirstStep false sval).2 = none ∧
       (rowFirstStep false sval).1 ≠ RowClass.netAttempt) := by
  refine ⟨rfl, rfl, rfl, gateway_none_of_not_http, ?_, ?_, ?_⟩
  · intro sval
    simp [rowFirstStep]
  · intro sval he
    simp [rowFirstStep, he]
  · intro sval h1 h2
    have hg : downloadGateway (PyValue.vStr (pyStrip sval)) = none := by
      apply gateway_none_of_not_http
      · rw [pyStrip_idem]; exact h1
      · rw [pyStrip_idem]; exact h2
    by_cases he : pyStrip sval = ""
    · simp [rowFirstStep, he]
    · simp [rowFirstStep, he, hg]

/-- Witness for C5 at the scheme-less URL `"ftp://example.com"`. -/
theorem c5_witness :
    (rowFirstStep false "ftp://example.com").2 = none ∧
    (rowFirstStep false "ftp://example.com").1 ≠ RowClass.netAttempt :=
  c5_no_network_for_invalid_urls.2.2.2.2.2.2 "ftp://example.com" (by decide) (by decide)

/-- C6 counterexample: `_decode_qr` in src/utils/qr_detector.py
returns the payload of the first decoded symbol of ANY kind — here an
EAN13 barcode contributes the payload `"HI"` — so "non-QR symbols
never contribute a payload" fails for that primary-decode helper. -/
theorem c6_counterexample :
    qrDetector_decode_qr (Except.ok [⟨"EAN13", [72, 73]⟩]) = some "HI" ∧
    ("EAN13" : String) ≠ "QRCODE" := by
  decide

/-- C6 (amended): every symbol that survives
`QRCodeAnalyzer.detect_qr_with_pyzbar` has kind `QRCODE`, but the
`qr_detector._decode_qr` helper returns the first decoded symbol's
payload regardless of its kind; in both paths payloads are produced by
the total UTF-8 decoder that drops invalid byte sequences instead of
raising, e.g. `0xFF` is skipped in `[0xFF, 'A', 0xC3, 0xA9]`. -/
theorem c6_qr_filter_and_utf8 :
    (∀ (r : Except String (List ZbarObj)) (o : ZbarObj),
       o ∈ detect_qr_with_pyzbar r → o.type = "QRCODE") ∧
    (∀ (o : ZbarObj) (rest : List ZbarObj),
       qrDetector_decode_qr (Except.ok (o :: rest)) = some (utf8DecodeIgnore o.data)) ∧
    utf8DecodeIgnore [0xFF, 65, 0xC3, 0xA9] = "Aé" := by
  refine ⟨?_, fun o rest => rfl, by decide⟩
  intro r o ho
  match r with
  | Except.error e => simp [detect_qr_with_pyzbar] at ho
  | Except.ok objs =>
    rw [detect_qr_with_pyzbar] at ho
    split at ho
    · simp at ho
    · have hm := List.mem_filter.mp ho
      simpa using hm.2

/-- Witness for C6 at a two-symbol decode result. -/
theorem c6_witness :
    (⟨"QRCODE", [72]⟩ : ZbarObj).type = "QRCODE" :=
  c6_qr_filter_and_utf8.1 (Except.ok [⟨"QRCODE", [72]⟩, ⟨"EAN13", [73]⟩])
    ⟨"QRCODE", [72]⟩ (by decide)

/-- C7: an exception inside any backend decode call is caught within
that backend and the call returns its empty value — `[]` for the two
`QRCodeAnalyzer` detectors, `None` for the `qr_detector` helpers (a
failed first attempt still falls through to the second) — and a run of
`analyze_image` whose decode oracles all raise still completes,
producing `[]` payloads and the `"NOT_FOUND"` classification instead
of propagating the exception to the per-row caller. -/
theorem c7_backend_exceptions_degrade (e : String) :
    detect_qr_with_pyzbar (Except.error e) = [] ∧
    detect_qr_with_opencv (Except.error e) = [] ∧
    qrDetector_decode_qr (Except.error e) = none ∧
    (∀ (conv enh : Except String Unit) (d2 : Except String (List ZbarObj)),
       detect_and_decode_qr conv (Except.error e) enh d2 =
         match conv with
         | Except.error _ => none
         | Except.ok _ =>
           match enh with
           | Except.error _ => none
           | Except.ok _ => qrDetector_decode_qr d2) ∧
    (∀ (Img : Type) (B : Backend Img) (img : Img),
       (∀ i, B.pyzbarDecode i = Except.error e) →
       B.opencvDetect img = Except.error e →
       (analyze_image B img).2 = [] ∧
       format_qr_result (analyze_image B img).2 = "NOT_FOUND") := by
  refine ⟨rfl, rfl, rfl, ?_, ?_⟩
  · intro conv enh d2
    cases conv with
    | error a => rfl
    | ok u =>
      cases enh with
      | error a => rfl
      | ok u2 => rfl
  · intro Img B img hp ho
    have hP : ∀ i, pyzbarPayloads B i = [] := by
      intro i
      simp [pyzbarPayloads, hp i, detect_qr_with_pyzbar]
    have hres : (analyze_image B img).2 = [] := by
      have hse := stage2_all_empty B (enhance_image B img) (fun u _ => hP u)
      simp [analyze_image, hP, hse, ho, detect_qr_with_opencv, dedup, dedupAux]
    exact ⟨hres, by rw [hres]; rfl⟩

/-- Backend fixture for the C7 witness: every decode call raises. -/
def errorBackend : Backend Nat where
  pyzbarDecode := fun _ => Except.error "boom"
  opencvDetect := fun _ => Except.error "boom"
  grayscale := fun _ => some 1
  contrast2 := fun _ => none
  brightness15 := fun _ => none
  sharpness2 := fun _ => none

/-- Witness for C7 at the always-raising backend. -/
theorem c7_witness :
    (analyze_image errorBackend 0).2 = [] ∧
    format_qr_result (analyze_image errorBackend 0).2 = "NOT_FOUND" :=
  (c7_backend_exceptions_degrade "boom").2.2.2.2 Nat errorBackend 0 (fun _ => rfl) rfl

/-- C8 counterexample: the payload `"abcd123456"` contains no
word-bounded token of 10 UPPER-case letters/digits and no labelled
code, so the claimed extractor finds nothing — but
`decode_qr_code` extracts `"ABCD123456"`, because method 3 searches
its first pattern with `re.IGNORECASE`. -/
theorem c8_counterexample :
    claimExtractC8 "abcd123456" = none ∧
    (decode_qr_code [⟨"QRCODE", [97, 98, 99, 100, 49, 50, 51, 52, 53, 54]⟩]
        ⟨"", false⟩).2.2 = some "ABCD123456" := by
  decide

/-- C8 (amended): on a payload decoded from the first QR symbol, the
extractor tries in order a case-sensitive word-bounded 10-character
`[A-Z0-9]` token, then the same pattern case-insensitively
(upper-casing the match), then the `code`/`id`-labelled 8-12 character
patterns case-insensitively (upper-casing the match); a case-sensitive
hit is returned verbatim, and whenever a token is extracted it is
stored as the row value in place of the raw payload. -/
theorem c8_extraction_priority (objs : List ZbarObj) (cv : CvOut) (o : ZbarObj)
    (h : firstQrObj objs = some o) :
    decode_qr_code objs cv =
      (true, some (utf8DecodeIgnore o.data), ecChain (utf8DecodeIgnore o.data)) ∧
    (∀ t, searchTen false (utf8DecodeIgnore o.data) = some t →
       ecChain (utf8DecodeIgnore o.data) = some t) ∧
    (∀ c, ecChain (utf8DecodeIgnore o.data) = some c →
       (process_image_qr objs cv).2 = c) := by
  have hdec := decode_qr_code_of_firstQr objs cv o h
  refine ⟨hdec, ?_, ?_⟩
  · intro t ht
    simp [ecChain, ht]
  · intro c hc
    simp [process_image_qr, hdec, hc]

/-- Witness for C8 at the payload `"code:ABCD1234"`. -/
theorem c8_witness :
    decode_qr_code [⟨"QRCODE", [99, 111, 100, 101, 58, 65, 66, 67, 68, 49, 50, 51, 52]⟩]
        ⟨"", false⟩ =
      (true,
       some (utf8DecodeIgnore [99, 111, 100, 101, 58, 65, 66, 67, 68, 49, 50, 51, 52]),
       ecChain (utf8DecodeIgnore [99, 111, 100, 101, 58, 65, 66, 67, 68, 49, 50, 51, 52])) :=
  (c8_extraction_priority [⟨"QRCODE", [99, 111, 100, 101, 58, 65, 66, 67, 68, 49, 50, 51, 52]⟩]
    ⟨"", false⟩ ⟨"QRCODE", [99, 111, 100, 101, 58, 65, 66, 67, 68, 49, 50, 51, 52]⟩ (by decide)).1

/-- C9 counterexample: a one-row run whose only row has a missing URL
leaves `total_processed` at 0, not at the row count 1 — the
missing-URL branch of `QRCodeAnalyzer.process_excel` executes
`continue` before the `total_processed` increment. -/
theorem c9_counterexample :
    (List.foldl processRow runStatsInit [RowEvent.missingUrl]).total_processed ≠
      ([RowEvent.missingUrl] : List RowEvent).length := by
  decide

/-- C9 (amended): in `QRCodeAnalyzer.process_excel` the final
`total_processed` equals the number of rows that are NOT missing-URL
rows (missing-URL rows bump only `errors`), and every counter of its
`results` dict is monotone under each per-row update and across any
run; in `qr_processor.process_excel` the `total` counter is set to the
row count once, up front, the loop never changes it, and every counter
of its `stats` dict (`total`, `qr_found`, `no_qr`, `errors`,
`skipped`) is likewise monotone per row and across any run. -/
theorem c9_total_and_monotonicity (rows : List RowEvent) (n : Nat)
    (prows : List ProcRowEvent) :
    (List.foldl processRow runStatsInit rows).total_processed =
      rows.countP (fun r => !isMissingUrl r) ∧
    (∀ st r, statsLe st (processRow st r)) ∧
    (∀ st, statsLe st (List.foldl processRow st rows)) ∧
    (∀ st r, procStatsLe st (procStep st r)) ∧
    (∀ st, procStatsLe st (List.foldl procStep st prows)) ∧
    (procRun n prows).total = n := by
  refine ⟨?_, processRow_mono, fun st => foldl_processRow_mono rows st,
    procStep_mono, fun st => foldl_procStep_mono prows st, ?_⟩
  · rw [foldl_processRow_total rows runStatsInit]
    simp [runStatsInit]
  · show (List.foldl procStep ⟨n, 0, 0, 0, 0⟩ prows).total = n
    rw [foldl_procStep_total prows ⟨n, 0, 0, 0, 0⟩]

/-- C10: when a payload is decoded from the first QR symbol but no
alphanumeric token is extracted, `process_image` stores the payload
truncated to its first 50 characters; for payloads longer than 50
characters the stored value is a strict prefix of — and thus different
from — the payload. -/
theorem c10_stored_truncation (objs : List ZbarObj) (cv : CvOut) (o : ZbarObj)
    (h : firstQrObj objs = some o)
    (hec : (decode_qr_code objs cv).2.2 = none) :
    (process_image_qr objs cv).2 =
      String.mk ((utf8DecodeIgnore o.data).toList.take 50) ∧
    (50 < (utf8DecodeIgnore o.data).toList.length →
       (process_image_qr objs cv).2 ≠ utf8DecodeIgnore o.data ∧
       (process_image_qr objs cv).2.toList ++ (utf8DecodeIgnore o.data).toList.drop 50 =
         (utf8DecodeIgnore o.data).toList) := by
  have hdec := decode_qr_code_of_firstQr objs cv o h
  have hecc : ecChain (utf8DecodeIgnore o.data) = none := by
    rw [hdec] at hec
    exact hec
  have hstored : (process_image_qr objs cv).2 =
      String.mk ((utf8DecodeIgnore o.data).toList.take 50) := by
    by_cases hd : utf8DecodeIgnore o.data = ""
    · have hecc2 : ecChain "" = none := by rw [← hd]; exact hecc
      simp [process_image_qr, hdec, hecc2, hd]
    · simp [process_image_qr, hdec, hecc, hd]
  refine ⟨hstored, ?_⟩
  intro hlen
  constructor
  · intro heq
    have htl : ((utf8DecodeIgnore o.data).toList.take 50) = (utf8DecodeIgnore o.data).toList := by
      have := congrArg String.toList (hstored.symm.trans heq)
      exact this
    have hlength := congrArg List.length htl
    rw [List.length_take] at hlength
    have := min_le_left 50 (utf8DecodeIgnore o.data).toList.length
    omega
  · rw [hstored]
    exact List.take_append_drop 50 (utf8DecodeIgnore o.data).toList

/-- Witness for C10 at a 51-character payload of `'x'`s. -/
theorem c10_witness :
    (process_image_qr [⟨"QRCODE", List.replicate 51 120⟩] ⟨"", false⟩).2 ≠
      utf8DecodeIgnore (List.replicate 51 120) :=
  ((c10_stored_truncation [⟨"QRCODE", List.replicate 51 120⟩] ⟨"", false⟩
    ⟨"QRCODE", List.replicate 51 120⟩ (by decide) (by decide)).2 (by decide)).1
